import Mathlib

/-!
Verification of the `date-calculations` library (`src/lib.rs`).

The library operates on chrono `NaiveDate` values.  We embed a date as its
(year, month, day) fields, with the representable year range of chrono
(`MIN_YEAR = i32::MIN >> 13 = -262144`, `MAX_YEAR = i32::MAX >> 13 = 262143`;
`NaiveDate::MIN` is -262144-01-01 and `NaiveDate::MAX` is 262143-12-31).
The chrono primitives used by the library (`weekday`, `iso_week`,
`from_isoywd_opt`, `with_day`/`with_month`/`with_year`, and addition and
subtraction of day/week `Duration`s) are modelled below from their
documented proleptic-Gregorian semantics; day arithmetic goes through a
rata-die day count (day 1 = 0001-01-01, a Monday).  The chrono `Add`/`Sub` of a
`Duration` panics when the result falls outside the representable range; we
model that outcome as `none`, which coincides with the explicit
absence-of-result the library propagates everywhere else.
-/

/-- chrono `MIN_YEAR`. -/
def minYear : Int := -262144

/-- chrono `MAX_YEAR`. -/
def maxYear : Int := 262143

/-- Proleptic Gregorian leap-year rule (astronomical year numbering). -/
def isLeapYear (y : Int) : Bool :=
  decide (y % 4 = 0 ∧ (y % 100 ≠ 0 ∨ y % 400 = 0))

/-- Number of days in month `m` of year `y` (0 for an out-of-range month). -/
def daysInMonth (y : Int) (m : Nat) : Nat :=
  match m with
  | 1 => 31
  | 2 => if isLeapYear y then 29 else 28
  | 3 => 31
  | 4 => 30
  | 5 => 31
  | 6 => 30
  | 7 => 31
  | 8 => 31
  | 9 => 30
  | 10 => 31
  | 11 => 30
  | 12 => 31
  | _ => 0

/-- Number of days in year `y`. -/
def daysInYear (y : Int) : Int := if isLeapYear y then 366 else 365

/-- Days of year `y` that precede the first day of month `m`. -/
def daysBeforeMonth (y : Int) (m : Nat) : Int :=
  let l : Int := if isLeapYear y then 1 else 0
  match m with
  | 1 => 0
  | 2 => 31
  | 3 => 59 + l
  | 4 => 90 + l
  | 5 => 120 + l
  | 6 => 151 + l
  | 7 => 181 + l
  | 8 => 212 + l
  | 9 => 243 + l
  | 10 => 273 + l
  | 11 => 304 + l
  | 12 => 334 + l
  | _ => 0

/-- A calendar date, as the (year, month, day) fields of a chrono `NaiveDate`. -/
structure Date where
  year : Int
  month : Nat
  day : Nat
deriving DecidableEq, Repr

/-- The date is a real proleptic-Gregorian date within the chrono range. -/
def Date.Valid (d : Date) : Prop :=
  minYear ≤ d.year ∧ d.year ≤ maxYear ∧ 1 ≤ d.month ∧ d.month ≤ 12 ∧
    1 ≤ d.day ∧ d.day ≤ daysInMonth d.year d.month

instance (d : Date) : Decidable d.Valid :=
  inferInstanceAs (Decidable (minYear ≤ d.year ∧ d.year ≤ maxYear ∧ 1 ≤ d.month ∧
    d.month ≤ 12 ∧ 1 ≤ d.day ∧ d.day ≤ daysInMonth d.year d.month))

/-- Ordinal of the date within its year (1 = January 1). -/
def dayOfYear (d : Date) : Int := daysBeforeMonth d.year d.month + d.day

/-- Rata-die number of January 1 of year `y` (0001-01-01 has number 1). -/
def jan1RD (y : Int) : Int :=
  365 * (y - 1) + (y - 1) / 4 - (y - 1) / 100 + (y - 1) / 400 + 1

/-- Rata-die number of a date; the common day count underlying the chrono
day arithmetic, weekday and ISO-week computations. -/
def toRD (d : Date) : Int := jan1RD d.year + dayOfYear d - 1

/-- Rata-die number of `NaiveDate::MIN`. -/
def minRD : Int := toRD ⟨minYear, 1, 1⟩

/-- Rata-die number of `NaiveDate::MAX`. -/
def maxRD : Int := toRD ⟨maxYear, 12, 31⟩

/-- chrono `Weekday`. -/
inductive Weekday where
  | mon
  | tue
  | wed
  | thu
  | fri
  | sat
  | sun
deriving DecidableEq, Repr

/-- chrono `Weekday::num_days_from_monday`. -/
def Weekday.num_days_from_monday : Weekday → Int
  | .mon => 0
  | .tue => 1
  | .wed => 2
  | .thu => 3
  | .fri => 4
  | .sat => 5
  | .sun => 6

/-- Weekday of a rata-die number (day 1, 0001-01-01, is a Monday). -/
def weekdayOfRD (rd : Int) : Weekday :=
  match ((rd - 1) % 7).toNat with
  | 0 => .mon
  | 1 => .tue
  | 2 => .wed
  | 3 => .thu
  | 4 => .fri
  | 5 => .sat
  | _ => .sun

/-- chrono `NaiveDate::weekday`. -/
def Date.weekday (d : Date) : Weekday := weekdayOfRD (toRD d)

/-- chrono `NaiveDate::with_day`: replace the day, `none` if invalid. -/
def Date.with_day (d : Date) (day : Nat) : Option Date :=
  if Date.Valid ⟨d.year, d.month, day⟩ then some ⟨d.year, d.month, day⟩ else none

/-- chrono `NaiveDate::with_month`: replace the month, `none` if invalid. -/
def Date.with_month (d : Date) (m : Nat) : Option Date :=
  if Date.Valid ⟨d.year, m, d.day⟩ then some ⟨d.year, m, d.day⟩ else none

/-- chrono `NaiveDate::with_year`: replace the year, `none` if invalid. -/
def Date.with_year (d : Date) (y : Int) : Option Date :=
  if Date.Valid ⟨y, d.month, d.day⟩ then some ⟨y, d.month, d.day⟩ else none

/-- chrono `NaiveDate::succ_opt`: the next calendar day. -/
def Date.succ (d : Date) : Option Date :=
  if d.day < daysInMonth d.year d.month then some ⟨d.year, d.month, d.day + 1⟩
  else if d.month < 12 then some ⟨d.year, d.month + 1, 1⟩
  else if d.year < maxYear then some ⟨d.year + 1, 1, 1⟩
  else none

/-- chrono `NaiveDate::pred_opt`: the previous calendar day. -/
def Date.pred (d : Date) : Option Date :=
  if 1 < d.day then some ⟨d.year, d.month, d.day - 1⟩
  else if 1 < d.month then some ⟨d.year, d.month - 1, daysInMonth d.year (d.month - 1)⟩
  else if minYear < d.year then some ⟨d.year - 1, 12, 31⟩
  else none

/-- Move `n` calendar days forward, `none` past `NaiveDate::MAX`. -/
def addDaysNat (d : Date) : Nat → Option Date
  | 0 => some d
  | n + 1 => Option.bind d.succ (fun e => addDaysNat e n)

/-- Move `n` calendar days backward, `none` past `NaiveDate::MIN`. -/
def subDaysNat (d : Date) : Nat → Option Date
  | 0 => some d
  | n + 1 => Option.bind d.pred (fun e => subDaysNat e n)

/-- chrono `NaiveDate ± Duration::days(k)` / `Duration::weeks(k)` (signed);
chrono panics when the result is unrepresentable, modelled here as `none`. -/
def addDays (d : Date) (k : Int) : Option Date :=
  if 0 ≤ k then addDaysNat d k.toNat else subDaysNat d (-k).toNat

/-- Rata-die number of the Monday starting ISO week 1 of ISO year `y`
(the Monday of the week containing January 4). -/
def week1Mon (y : Int) : Int := jan1RD y + 3 - (jan1RD y + 2) % 7

/-- Number of ISO weeks in ISO year `y`: 53 when January 1 is a Thursday, or
a Wednesday of a leap year; otherwise 52. -/
def nisoweeks (y : Int) : Int :=
  if (jan1RD y - 1) % 7 = 3 ∨ (isLeapYear y = true ∧ (jan1RD y - 1) % 7 = 2) then 53
  else 52

/-- Split a day-of-year ordinal into (month, day-of-month), where `l` is 1 in
a leap year and 0 otherwise. -/
def ordToMD (l o : Int) : Nat × Int :=
  if o ≤ 31 then (1, o)
  else if o ≤ 59 + l then (2, o - 31)
  else if o ≤ 90 + l then (3, o - 59 - l)
  else if o ≤ 120 + l then (4, o - 90 - l)
  else if o ≤ 151 + l then (5, o - 120 - l)
  else if o ≤ 181 + l then (6, o - 151 - l)
  else if o ≤ 212 + l then (7, o - 181 - l)
  else if o ≤ 243 + l then (8, o - 212 - l)
  else if o ≤ 273 + l then (9, o - 243 - l)
  else if o ≤ 304 + l then (10, o - 273 - l)
  else if o ≤ 334 + l then (11, o - 304 - l)
  else (12, o - 334 - l)

/-- chrono `NaiveDate::from_yo_opt`: the date with the given year and
day-of-year ordinal; `none` when the year is out of range or the ordinal is
not in `1 ..= ndays(year)`. -/
def fromYearOrdinal (y : Int) (o : Int) : Option Date :=
  if minYear ≤ y ∧ y ≤ maxYear ∧ 1 ≤ o ∧ o ≤ daysInYear y then
    let p := ordToMD (if isLeapYear y then 1 else 0) o
    some ⟨y, p.1, p.2.toNat⟩
  else none

/-- chrono `NaiveDate::from_isoywd_opt`: date of the given weekday in ISO week
`w` of ISO year `y`; `none` for an out-of-range week number or an
unrepresentable result.  The ordinal `7*(w-1) + days-from-Monday + 4 - delta`
(with `delta` the Monday-based weekday of January 4) lands in year `y - 1`,
`y`, or `y + 1`. -/
def from_isoywd_opt (y : Int) (w : Int) (wd : Weekday) : Option Date :=
  if w < 1 ∨ nisoweeks y < w then none
  else
    let ord : Int := 7 * (w - 1) + wd.num_days_from_monday + 4 - (jan1RD y + 2) % 7
    if ord ≤ 0 then fromYearOrdinal (y - 1) (ord + daysInYear (y - 1))
    else if ord ≤ daysInYear y then fromYearOrdinal y ord
    else fromYearOrdinal (y + 1) (ord - daysInYear y)

/-- chrono `NaiveDate::iso_week`, as the pair (ISO year, ISO week number):
the ISO year whose week grid (Monday-start, week 1 containing January 4)
contains the Monday of the week holding this date. -/
def isoWeekPair (d : Date) : Int × Int :=
  let rdMon : Int := toRD d - (toRD d - 1) % 7
  if rdMon < week1Mon d.year then (d.year - 1, (rdMon - week1Mon (d.year - 1)) / 7 + 1)
  else if week1Mon (d.year + 1) ≤ rdMon then (d.year + 1, 1)
  else (d.year, (rdMon - week1Mon d.year) / 7 + 1)

/-- `beginning_of_week` from `src/lib.rs`. -/
def beginning_of_week (date : Date) : Option Date :=
  if date.weekday = Weekday.sun then some date
  else
    Option.bind (from_isoywd_opt (isoWeekPair date).1 (isoWeekPair date).2 Weekday.sun)
      (fun d => addDays d (-7))

/-- `end_of_week` from `src/lib.rs`. -/
def end_of_week (date : Date) : Option Date :=
  Option.bind (beginning_of_week date) (fun d => addDays d 6)

/-- `next_week` from `src/lib.rs`. -/
def next_week (date : Date) : Option Date :=
  Option.bind (beginning_of_week date) (fun d => addDays d 7)

/-- `previous_week` from `src/lib.rs`. -/
def previous_week (date : Date) : Option Date :=
  Option.bind (beginning_of_week date) (fun d => addDays d (-7))

/-- `beginning_of_month` from `src/lib.rs`. -/
def beginning_of_month (date : Date) : Option Date :=
  date.with_day 1

/-- `beginning_of_year` from `src/lib.rs`. -/
def beginning_of_year (date : Date) : Option Date :=
  Option.bind (beginning_of_month date) (fun d => d.with_month 1)

/-- `end_of_year` from `src/lib.rs`. -/
def end_of_year (date : Date) : Option Date :=
  Option.bind (date.with_month 12) (fun d => d.with_day 31)

/-- `next_year` from `src/lib.rs`. -/
def next_year (date : Date) : Option Date :=
  Option.bind (beginning_of_year date) (fun d => d.with_year (date.year + 1))

/-- `previous_year` from `src/lib.rs`. -/
def previous_year (date : Date) : Option Date :=
  Option.bind (beginning_of_year date) (fun d => d.with_year (date.year - 1))

/-- `next_month` from `src/lib.rs`. -/
def next_month (date : Date) : Option Date :=
  if date.month = 12 then next_year date
  else Option.bind (beginning_of_month date) (fun d => d.with_month (date.month + 1))

/-- `end_of_month` from `src/lib.rs`. -/
def end_of_month (date : Date) : Option Date :=
  Option.bind (next_month date) (fun d => addDays d (-1))

/-- `previous_month` from `src/lib.rs`. -/
def previous_month (date : Date) : Option Date :=
  if date.month = 1 then
    Option.bind (Option.bind (beginning_of_month date) (fun d => d.with_month 12))
      (fun d => d.with_year (date.year - 1))
  else Option.bind (beginning_of_month date) (fun d => d.with_month (date.month - 1))

/-- `quarter_month` from `src/lib.rs`. -/
def quarter_month (date : Date) : Nat := 1 + 3 * ((date.month - 1) / 3)

/-- `beginning_of_quarter` from `src/lib.rs`. -/
def beginning_of_quarter (date : Date) : Option Date :=
  Option.bind (beginning_of_month date) (fun d => d.with_month (quarter_month date))

/-- `next_quarter` from `src/lib.rs`. -/
def next_quarter (date : Date) : Option Date :=
  if 10 ≤ date.month then
    Option.bind (beginning_of_year date) (fun d => d.with_year (date.year + 1))
  else Option.bind (beginning_of_month date) (fun d => d.with_month (quarter_month date + 3))

/-- `end_of_quarter` from `src/lib.rs`. -/
def end_of_quarter (date : Date) : Option Date :=
  Option.bind (next_quarter date) (fun d => addDays d (-1))

/-- `previous_quarter` from `src/lib.rs`. -/
def previous_quarter (date : Date) : Option Date :=
  if date.month < 4 then
    Option.bind (Option.bind (beginning_of_month date) (fun d => d.with_year (date.year - 1)))
      (fun d => d.with_month 10)
  else Option.bind (beginning_of_month date) (fun d => d.with_month (quarter_month date - 3))

/-! ### Base calendar arithmetic -/

lemma jan1RD_succ (y : Int) : jan1RD (y + 1) = jan1RD y + daysInYear y := by
  unfold jan1RD daysInYear isLeapYear
  by_cases h4 : y % 4 = 0 <;> by_cases h100 : y % 100 = 0 <;> by_cases h400 : y % 400 = 0 <;>
    simp [h4, h100, h400] <;> omega

lemma jan1RD_mono (y1 y2 : Int) (h : y1 ≤ y2) : jan1RD y1 ≤ jan1RD y2 := by
  unfold jan1RD
  omega

lemma daysInYear_bounds (y : Int) : 365 ≤ daysInYear y ∧ daysInYear y ≤ 366 := by
  unfold daysInYear
  split_ifs <;> omega

lemma daysInMonth_pos (y : Int) (m : Nat) (h1 : 1 ≤ m) (h2 : m ≤ 12) :
    1 ≤ daysInMonth y m := by
  interval_cases m <;> simp [daysInMonth] <;> split_ifs <;> omega

lemma daysInMonth_le (y : Int) (m : Nat) : daysInMonth y m ≤ 31 := by
  unfold daysInMonth
  split <;> first | omega | (split_ifs <;> omega)

lemma daysBeforeMonth_succ (y : Int) (m : Nat) (h1 : 1 ≤ m) (h2 : m ≤ 11) :
    daysBeforeMonth y (m + 1) = daysBeforeMonth y m + daysInMonth y m := by
  interval_cases m <;> simp [daysBeforeMonth, daysInMonth] <;> split_ifs <;> omega

lemma dayOfYear_bounds (d : Date) (hd : d.Valid) :
    1 ≤ dayOfYear d ∧ dayOfYear d ≤ daysInYear d.year := by
  obtain ⟨y, m, day⟩ := d
  obtain ⟨_, _, hm1, hm2, hd1, hd2⟩ := hd
  simp only at hm1 hm2 hd1 hd2
  unfold dayOfYear daysBeforeMonth daysInYear
  interval_cases m <;> simp [daysInMonth] at hd2 ⊢ <;> split_ifs at hd2 ⊢ <;> omega

lemma toRD_year_range (d : Date) (hd : d.Valid) :
    jan1RD d.year ≤ toRD d ∧ toRD d ≤ jan1RD (d.year + 1) - 1 := by
  have h1 := dayOfYear_bounds d hd
  have h2 := jan1RD_succ d.year
  unfold toRD
  omega

lemma minRD_eq : minRD = jan1RD minYear := by decide

lemma maxRD_eq : maxRD = jan1RD (maxYear + 1) - 1 := by decide

lemma toRD_bounds (d : Date) (hd : d.Valid) : minRD ≤ toRD d ∧ toRD d ≤ maxRD := by
  have h1 := toRD_year_range d hd
  have h2 := jan1RD_mono minYear d.year hd.1
  have h3 := jan1RD_mono (d.year + 1) (maxYear + 1) (by have := hd.2.1; omega)
  have h4 := minRD_eq
  have h5 := maxRD_eq
  omega

/-! ### Field-replacement helpers -/

lemma valid_mk (y : Int) (m day : Nat) (h1 : minYear ≤ y) (h2 : y ≤ maxYear) (h3 : 1 ≤ m)
    (h4 : m ≤ 12) (h5 : 1 ≤ day) (h6 : day ≤ daysInMonth y m) : Date.Valid ⟨y, m, day⟩ :=
  ⟨h1, h2, h3, h4, h5, h6⟩

lemma valid_mk_iff (y : Int) (m day : Nat) :
    Date.Valid ⟨y, m, day⟩ ↔
      minYear ≤ y ∧ y ≤ maxYear ∧ 1 ≤ m ∧ m ≤ 12 ∧ 1 ≤ day ∧ day ≤ daysInMonth y m :=
  Iff.rfl

lemma with_day_mk (y : Int) (m day day2 : Nat) (h : Date.Valid ⟨y, m, day2⟩) :
    Date.with_day ⟨y, m, day⟩ day2 = some ⟨y, m, day2⟩ := by
  unfold Date.with_day
  exact if_pos h

lemma with_month_mk (y : Int) (m day m2 : Nat) (h : Date.Valid ⟨y, m2, day⟩) :
    Date.with_month ⟨y, m, day⟩ m2 = some ⟨y, m2, day⟩ := by
  unfold Date.with_month
  exact if_pos h

lemma with_year_mk (y : Int) (m day : Nat) (y2 : Int) (h : Date.Valid ⟨y2, m, day⟩) :
    Date.with_year ⟨y, m, day⟩ y2 = some ⟨y2, m, day⟩ := by
  unfold Date.with_year
  exact if_pos h

lemma with_year_mk_none (y : Int) (m day : Nat) (y2 : Int) (h : ¬ Date.Valid ⟨y2, m, day⟩) :
    Date.with_year ⟨y, m, day⟩ y2 = none := by
  unfold Date.with_year
  exact if_neg h

lemma daysInMonth_one (y : Int) : daysInMonth y 1 = 31 := rfl

lemma daysInMonth_twelve (y : Int) : daysInMonth y 12 = 31 := rfl

lemma daysInMonth_ten (y : Int) : daysInMonth y 10 = 31 := rfl

/-! ### Characterization of the month / quarter / year operations -/

lemma beginning_of_month_eq (d : Date) (hd : d.Valid) :
    beginning_of_month d = some ⟨d.year, d.month, 1⟩ := by
  obtain ⟨hy1, hy2, hm1, hm2, _, _⟩ := hd
  exact with_day_mk d.year d.month d.day 1 (valid_mk d.year d.month 1 hy1 hy2 hm1 hm2
    (by omega) (daysInMonth_pos d.year d.month hm1 hm2))

lemma beginning_of_year_eq (d : Date) (hd : d.Valid) :
    beginning_of_year d = some ⟨d.year, 1, 1⟩ := by
  unfold beginning_of_year
  rw [beginning_of_month_eq d hd, Option.some_bind]
  exact with_month_mk d.year d.month 1 1 (valid_mk d.year 1 1 hd.1 hd.2.1 (by omega) (by omega)
    (by omega) (by rw [daysInMonth_one]; omega))

lemma end_of_year_eq (d : Date) (hd : d.Valid) :
    end_of_year d = some ⟨d.year, 12, 31⟩ := by
  obtain ⟨hy1, hy2, hm1, hm2, hd1, hd2⟩ := hd
  have h31 := daysInMonth_le d.year d.month
  unfold end_of_year
  rw [with_month_mk d.year d.month d.day 12 (valid_mk d.year 12 d.day hy1 hy2 (by omega)
      (by omega) hd1 (by rw [daysInMonth_twelve]; omega)), Option.some_bind]
  exact with_day_mk d.year 12 d.day 31 (valid_mk d.year 12 31 hy1 hy2 (by omega) (by omega)
    (by omega) (le_of_eq (daysInMonth_twelve d.year).symm))

lemma next_year_char (d : Date) (hd : d.Valid) :
    (d.year < maxYear ∧ next_year d = some ⟨d.year + 1, 1, 1⟩) ∨
      (d.year = maxYear ∧ next_year d = none) := by
  unfold next_year
  rw [beginning_of_year_eq d hd, Option.some_bind]
  by_cases h : d.year < maxYear
  · exact Or.inl ⟨h, with_year_mk d.year 1 1 (d.year + 1) (valid_mk (d.year + 1) 1 1
      (by have := hd.1; omega) (by omega) (by omega) (by omega) (by omega)
      (by rw [daysInMonth_one]; omega))⟩
  · refine Or.inr ⟨by have := hd.2.1; omega, with_year_mk_none d.year 1 1 (d.year + 1) ?_⟩
    rw [valid_mk_iff]
    intro hc
    omega

lemma previous_year_char (d : Date) (hd : d.Valid) :
    (minYear < d.year ∧ previous_year d = some ⟨d.year - 1, 1, 1⟩) ∨
      (d.year = minYear ∧ previous_year d = none) := by
  unfold previous_year
  rw [beginning_of_year_eq d hd, Option.some_bind]
  by_cases h : minYear < d.year
  · exact Or.inl ⟨h, with_year_mk d.year 1 1 (d.year - 1) (valid_mk (d.year - 1) 1 1
      (by omega) (by have := hd.2.1; omega) (by omega) (by omega) (by omega)
      (by rw [daysInMonth_one]; omega))⟩
  · refine Or.inr ⟨by have := hd.1; omega, with_year_mk_none d.year 1 1 (d.year - 1) ?_⟩
    rw [valid_mk_iff]
    intro hc
    omega

lemma next_month_char (d : Date) (hd : d.Valid) :
    (d.month ≠ 12 ∧ next_month d = some ⟨d.year, d.month + 1, 1⟩) ∨
      (d.month = 12 ∧ next_month d = next_year d) := by
  by_cases h : d.month = 12
  · refine Or.inr ⟨h, ?_⟩
    unfold next_month
    rw [if_pos h]
  · refine Or.inl ⟨h, ?_⟩
    unfold next_month
    rw [if_neg h, beginning_of_month_eq d hd, Option.some_bind]
    have hm2 := hd.2.2.2.1
    exact with_month_mk d.year d.month 1 (d.month + 1) (valid_mk d.year (d.month + 1) 1 hd.1
      hd.2.1 (by omega) (by omega) (by omega)
      (daysInMonth_pos d.year (d.month + 1) (by omega) (by omega)))

lemma previous_month_char (d : Date) (hd : d.Valid) :
    (d.month ≠ 1 ∧ previous_month d = some ⟨d.year, d.month - 1, 1⟩) ∨
      (d.month = 1 ∧ ((minYear < d.year ∧ previous_month d = some ⟨d.year - 1, 12, 1⟩) ∨
        (d.year = minYear ∧ previous_month d = none))) := by
  have hm1 := hd.2.2.1
  have hm2 := hd.2.2.2.1
  by_cases h : d.month = 1
  · refine Or.inr ⟨h, ?_⟩
    unfold previous_month
    rw [if_pos h, beginning_of_month_eq d hd, Option.some_bind,
      with_month_mk d.year d.month 1 12 (valid_mk d.year 12 1 hd.1 hd.2.1 (by omega) (by omega)
        (by omega) (by rw [daysInMonth_twelve]; omega)), Option.some_bind]
    by_cases hy : minYear < d.year
    · exact Or.inl ⟨hy, with_year_mk d.year 12 1 (d.year - 1) (valid_mk (d.year - 1) 12 1
        (by omega) (by have := hd.2.1; omega) (by omega) (by omega) (by omega)
        (by rw [daysInMonth_twelve]; omega))⟩
    · refine Or.inr ⟨by have := hd.1; omega, with_year_mk_none d.year 12 1 (d.year - 1) ?_⟩
      rw [valid_mk_iff]
      intro hc
      omega
  · refine Or.inl ⟨h, ?_⟩
    unfold previous_month
    rw [if_neg h, beginning_of_month_eq d hd, Option.some_bind]
    exact with_month_mk d.year d.month 1 (d.month - 1) (valid_mk d.year (d.month - 1) 1 hd.1
      hd.2.1 (by omega) (by omega) (by omega)
      (daysInMonth_pos d.year (d.month - 1) (by omega) (by omega)))

lemma quarter_month_cases (d : Date) (hd : d.Valid) :
    (d.month ≤ 3 ∧ quarter_month d = 1) ∨ (4 ≤ d.month ∧ d.month ≤ 6 ∧ quarter_month d = 4) ∨
      (7 ≤ d.month ∧ d.month ≤ 9 ∧ quarter_month d = 7) ∨
      (10 ≤ d.month ∧ quarter_month d = 10) := by
  have hm1 := hd.2.2.1
  have hm2 := hd.2.2.2.1
  unfold quarter_month
  omega

lemma quarter_month_dim (y : Int) (q : Nat) (hq : q = 1 ∨ q = 4 ∨ q = 7 ∨ q = 10) :
    1 ≤ daysInMonth y q := by
  rcases hq with h | h | h | h <;> subst h <;> simp [daysInMonth]

lemma beginning_of_quarter_eq (d : Date) (hd : d.Valid) :
    beginning_of_quarter d = some ⟨d.year, quarter_month d, 1⟩ := by
  have hq := quarter_month_cases d hd
  unfold beginning_of_quarter
  rw [beginning_of_month_eq d hd, Option.some_bind]
  exact with_month_mk d.year d.month 1 (quarter_month d) (valid_mk d.year (quarter_month d) 1
    hd.1 hd.2.1 (by omega) (by omega) (by omega) (quarter_month_dim d.year _ (by omega)))

lemma next_quarter_char (d : Date) (hd : d.Valid) :
    (10 ≤ d.month ∧ ((d.year < maxYear ∧ next_quarter d = some ⟨d.year + 1, 1, 1⟩) ∨
        (d.year = maxYear ∧ next_quarter d = none))) ∨
      (d.month < 10 ∧ next_quarter d = some ⟨d.year, quarter_month d + 3, 1⟩) := by
  have hq := quarter_month_cases d hd
  by_cases h : 10 ≤ d.month
  · refine Or.inl ⟨h, ?_⟩
    unfold next_quarter
    rw [if_pos h, beginning_of_year_eq d hd, Option.some_bind]
    by_cases hy : d.year < maxYear
    · exact Or.inl ⟨hy, with_year_mk d.year 1 1 (d.year + 1) (valid_mk (d.year + 1) 1 1
        (by have := hd.1; omega) (by omega) (by omega) (by omega) (by omega)
        (by rw [daysInMonth_one]; omega))⟩
    · refine Or.inr ⟨by have := hd.2.1; omega, with_year_mk_none d.year 1 1 (d.year + 1) ?_⟩
      rw [valid_mk_iff]
      intro hc
      omega
  · refine Or.inr ⟨by omega, ?_⟩
    unfold next_quarter
    rw [if_neg h, beginning_of_month_eq d hd, Option.some_bind]
    exact with_month_mk d.year d.month 1 (quarter_month d + 3) (valid_mk d.year
      (quarter_month d + 3) 1 hd.1 hd.2.1 (by omega) (by omega) (by omega)
      (quarter_month_dim d.year _ (by omega)))

lemma previous_quarter_char (d : Date) (hd : d.Valid) :
    (d.month < 4 ∧ ((minYear < d.year ∧ previous_quarter d = some ⟨d.year - 1, 10, 1⟩) ∨
        (d.year = minYear ∧ previous_quarter d = none))) ∨
      (4 ≤ d.month ∧ previous_quarter d = some ⟨d.year, quarter_month d - 3, 1⟩) := by
  have hq := quarter_month_cases d hd
  have hm1 := hd.2.2.1
  have hm2 := hd.2.2.2.1
  by_cases h : d.month < 4
  · refine Or.inl ⟨h, ?_⟩
    unfold previous_quarter
    rw [if_pos h, beginning_of_month_eq d hd, Option.some_bind]
    by_cases hy : minYear < d.year
    · rw [with_year_mk d.year d.month 1 (d.year - 1) (valid_mk (d.year - 1) d.month 1 (by omega)
        (by have := hd.2.1; omega) (by omega) (by omega) (by omega)
        (daysInMonth_pos (d.year - 1) d.month hm1 hm2)), Option.some_bind]
      exact Or.inl ⟨hy, with_month_mk (d.year - 1) d.month 1 10 (valid_mk (d.year - 1) 10 1
        (by omega) (by have := hd.2.1; omega) (by omega) (by omega) (by omega)
        (by rw [daysInMonth_ten]; omega))⟩
    · rw [with_year_mk_none d.year d.month 1 (d.year - 1)
        (by rw [valid_mk_iff]; intro hc; omega)]
      exact Or.inr ⟨by have := hd.1; omega, rfl⟩
  · refine Or.inr ⟨by omega, ?_⟩
    unfold previous_quarter
    rw [if_neg h, beginning_of_month_eq d hd, Option.some_bind]
    exact with_month_mk d.year d.month 1 (quarter_month d - 3) (valid_mk d.year
      (quarter_month d - 3) 1 hd.1 hd.2.1 (by omega) (by omega) (by omega)
      (quarter_month_dim d.year _ (by omega)))

/-! ### Day stepping and day arithmetic -/

lemma succ_some (d e : Date) (hd : d.Valid) (h : d.succ = some e) :
    e.Valid ∧ toRD e = toRD d + 1 := by
  obtain ⟨y, m, day⟩ := d
  rw [valid_mk_iff] at hd
  obtain ⟨hy1, hy2, hm1, hm2, hd1, hd2⟩ := hd
  simp only [Date.succ] at h
  split_ifs at h with h1 h2 h3
  · injection h with h
    subst h
    refine ⟨valid_mk y m (day + 1) hy1 hy2 hm1 hm2 (by omega) (by omega), ?_⟩
    simp only [toRD, dayOfYear]
    push_cast
    omega
  · injection h with h
    subst h
    have hday : day = daysInMonth y m := by omega
    have hsucc := daysBeforeMonth_succ y m hm1 (by omega)
    refine ⟨valid_mk y (m + 1) 1 hy1 hy2 (by omega) (by omega) (by omega)
      (daysInMonth_pos y (m + 1) (by omega) (by omega)), ?_⟩
    simp only [toRD, dayOfYear]
    push_cast
    omega
  · injection h with h
    subst h
    have hm : m = 12 := by omega
    subst hm
    have hday : day = 31 := by
      have := daysInMonth_twelve y
      omega
    subst hday
    have hj := jan1RD_succ y
    have hyr : daysInYear y = if isLeapYear y then 366 else 365 := rfl
    refine ⟨valid_mk (y + 1) 1 1 (by omega) (by omega) (by omega) (by omega) (by omega)
      (by rw [daysInMonth_one]; omega), ?_⟩
    simp only [toRD, dayOfYear, daysBeforeMonth]
    split_ifs at hyr ⊢ <;> push_cast <;> omega

lemma succ_none (d : Date) (hd : d.Valid) (h : d.succ = none) : toRD d = maxRD := by
  obtain ⟨y, m, day⟩ := d
  rw [valid_mk_iff] at hd
  obtain ⟨hy1, hy2, hm1, hm2, hd1, hd2⟩ := hd
  simp only [Date.succ] at h
  split_ifs at h with h1 h2 h3
  have hy : y = maxYear := by omega
  subst hy
  have hm : m = 12 := by omega
  subst hm
  have hday : day = 31 := by
    have := daysInMonth_twelve maxYear
    omega
  subst hday
  rfl

lemma pred_some (d e : Date) (hd : d.Valid) (h : d.pred = some e) :
    e.Valid ∧ toRD e = toRD d - 1 := by
  obtain ⟨y, m, day⟩ := d
  rw [valid_mk_iff] at hd
  obtain ⟨hy1, hy2, hm1, hm2, hd1, hd2⟩ := hd
  simp only [Date.pred] at h
  split_ifs at h with h1 h2 h3
  · injection h with h
    subst h
    refine ⟨valid_mk y m (day - 1) hy1 hy2 hm1 hm2 (by omega) (by omega), ?_⟩
    simp only [toRD, dayOfYear]
    omega
  · injection h with h
    subst h
    have hday : day = 1 := by omega
    have hsucc := daysBeforeMonth_succ y (m - 1) (by omega) (by omega)
    have hmm : m - 1 + 1 = m := by omega
    rw [hmm] at hsucc
    refine ⟨valid_mk y (m - 1) (daysInMonth y (m - 1)) hy1 hy2 (by omega) (by omega)
      (daysInMonth_pos y (m - 1) (by omega) (by omega)) (by omega), ?_⟩
    simp only [toRD, dayOfYear]
    omega
  · injection h with h
    subst h
    have hday : day = 1 := by omega
    have hm : m = 1 := by omega
    subst hm
    subst hday
    have hj := jan1RD_succ (y - 1)
    have hyy : y - 1 + 1 = y := by ring
    rw [hyy] at hj
    have hyr : daysInYear (y - 1) = if isLeapYear (y - 1) then 366 else 365 := rfl
    refine ⟨valid_mk (y - 1) 12 31 (by omega) (by omega) (by omega) (by omega) (by omega)
      (le_of_eq (daysInMonth_twelve (y - 1)).symm), ?_⟩
    simp only [toRD, dayOfYear, daysBeforeMonth]
    split_ifs at hyr ⊢ <;> push_cast <;> omega

lemma pred_none (d : Date) (hd : d.Valid) (h : d.pred = none) : toRD d = minRD := by
  obtain ⟨y, m, day⟩ := d
  rw [valid_mk_iff] at hd
  obtain ⟨hy1, hy2, hm1, hm2, hd1, hd2⟩ := hd
  simp only [Date.pred] at h
  split_ifs at h with h1 h2 h3
  have hy : y = minYear := by omega
  subst hy
  have hm : m = 1 := by omega
  subst hm
  have hday : day = 1 := by
    have := daysInMonth_one minYear
    omega
  subst hday
  rfl

lemma addDaysNat_some (n : Nat) :
    ∀ d e : Date, d.Valid → addDaysNat d n = some e → e.Valid ∧ toRD e = toRD d + n := by
  induction n with
  | zero =>
    intro d e hd h
    simp only [addDaysNat] at h
    injection h with h
    subst h
    exact ⟨hd, by omega⟩
  | succ n ih =>
    intro d e hd h
    simp only [addDaysNat] at h
    cases hs : d.succ with
    | none => rw [hs] at h; exact absurd h (by simp)
    | some x =>
      rw [hs, Option.some_bind] at h
      obtain ⟨hx, hxr⟩ := succ_some d x hd hs
      obtain ⟨he, her⟩ := ih x e hx h
      refine ⟨he, ?_⟩
      push_cast
      omega

lemma addDaysNat_isSome (n : Nat) :
    ∀ d : Date, d.Valid → toRD d + n ≤ maxRD → (addDaysNat d n).isSome := by
  induction n with
  | zero => intro d hd _; simp [addDaysNat]
  | succ n ih =>
    intro d hd hle
    simp only [addDaysNat]
    cases hs : d.succ with
    | none =>
      have := succ_none d hd hs
      omega
    | some x =>
      rw [Option.some_bind]
      obtain ⟨hx, hxr⟩ := succ_some d x hd hs
      exact ih x hx (by push_cast at hle ⊢; omega)

lemma subDaysNat_some (n : Nat) :
    ∀ d e : Date, d.Valid → subDaysNat d n = some e → e.Valid ∧ toRD e = toRD d - n := by
  induction n with
  | zero =>
    intro d e hd h
    simp only [subDaysNat] at h
    injection h with h
    subst h
    exact ⟨hd, by omega⟩
  | succ n ih =>
    intro d e hd h
    simp only [subDaysNat] at h
    cases hs : d.pred with
    | none => rw [hs] at h; exact absurd h (by simp)
    | some x =>
      rw [hs, Option.some_bind] at h
      obtain ⟨hx, hxr⟩ := pred_some d x hd hs
      obtain ⟨he, her⟩ := ih x e hx h
      refine ⟨he, ?_⟩
      push_cast
      omega

lemma subDaysNat_isSome (n : Nat) :
    ∀ d : Date, d.Valid → minRD ≤ toRD d - n → (subDaysNat d n).isSome := by
  induction n with
  | zero => intro d hd _; simp [subDaysNat]
  | succ n ih =>
    intro d hd hle
    simp only [subDaysNat]
    cases hs : d.pred with
    | none =>
      have := pred_none d hd hs
      omega
    | some x =>
      rw [Option.some_bind]
      obtain ⟨hx, hxr⟩ := pred_some d x hd hs
      exact ih x hx (by push_cast at hle ⊢; omega)

lemma addDays_some (d e : Date) (k : Int) (hd : d.Valid) (h : addDays d k = some e) :
    e.Valid ∧ toRD e = toRD d + k := by
  unfold addDays at h
  split_ifs at h with hk
  · obtain ⟨he, her⟩ := addDaysNat_some k.toNat d e hd h
    exact ⟨he, by omega⟩
  · obtain ⟨he, her⟩ := subDaysNat_some (-k).toNat d e hd h
    exact ⟨he, by omega⟩

lemma addDays_isSome (d : Date) (k : Int) (hd : d.Valid) (h1 : minRD ≤ toRD d + k)
    (h2 : toRD d + k ≤ maxRD) : (addDays d k).isSome := by
  unfold addDays
  split_ifs with hk
  · exact addDaysNat_isSome k.toNat d hd (by omega)
  · exact subDaysNat_isSome (-k).toNat d hd (by omega)

/-! ### Weekday and ISO-week machinery -/

lemma weekdayOfRD_sun_iff (rd : Int) : weekdayOfRD rd = Weekday.sun ↔ rd % 7 = 0 := by
  have heq : rd % 7 = 0 ↔ ((rd - 1) % 7).toNat = 6 := by omega
  have h7 : ((rd - 1) % 7).toNat < 7 := by omega
  rw [heq]
  unfold weekdayOfRD
  set k := ((rd - 1) % 7).toNat with hk
  interval_cases k <;> decide

lemma weekday_sun_iff (d : Date) : d.weekday = Weekday.sun ↔ toRD d % 7 = 0 := by
  unfold Date.weekday
  exact weekdayOfRD_sun_iff (toRD d)

lemma num_days_from_monday_bounds (wd : Weekday) :
    0 ≤ wd.num_days_from_monday ∧ wd.num_days_from_monday ≤ 6 := by
  cases wd <;> decide

lemma num_days_from_monday_sun : Weekday.num_days_from_monday Weekday.sun = 6 := rfl

lemma nisoweeks_bounds (y : Int) : 52 ≤ nisoweeks y ∧ nisoweeks y ≤ 53 := by
  unfold nisoweeks
  split_ifs <;> omega

lemma week1Mon_add (y : Int) : week1Mon (y + 1) = week1Mon y + 7 * nisoweeks y := by
  have hj := jan1RD_succ y
  unfold daysInYear at hj
  unfold week1Mon nisoweeks
  by_cases hb : isLeapYear y = true
  · rw [if_pos hb] at hj
    rw [hb]
    simp only [eq_self_iff_true, true_and]
    split_ifs with hc <;> omega
  · rw [if_neg hb] at hj
    have hb2 : isLeapYear y = false := by simpa using hb
    rw [hb2]
    simp only [Bool.false_eq_true, false_and, or_false]
    split_ifs with hc <;> omega

lemma dimv2 (y : Int) : daysInMonth y 2 = if isLeapYear y then 29 else 28 := rfl

lemma dimv3 (y : Int) : daysInMonth y 3 = 31 := rfl

lemma dimv4 (y : Int) : daysInMonth y 4 = 30 := rfl

lemma dimv5 (y : Int) : daysInMonth y 5 = 31 := rfl

lemma dimv6 (y : Int) : daysInMonth y 6 = 30 := rfl

lemma dimv7 (y : Int) : daysInMonth y 7 = 31 := rfl

lemma dimv8 (y : Int) : daysInMonth y 8 = 31 := rfl

lemma dimv9 (y : Int) : daysInMonth y 9 = 30 := rfl

lemma dimv11 (y : Int) : daysInMonth y 11 = 30 := rfl

lemma dbmv1 (y : Int) : daysBeforeMonth y 1 = 0 := rfl

lemma dbmv2 (y : Int) : daysBeforeMonth y 2 = 31 := rfl

lemma dbmv3 (y : Int) :
    daysBeforeMonth y 3 = 59 + (if isLeapYear y then (1 : Int) else 0) := rfl

lemma dbmv4 (y : Int) :
    daysBeforeMonth y 4 = 90 + (if isLeapYear y then (1 : Int) else 0) := rfl

lemma dbmv5 (y : Int) :
    daysBeforeMonth y 5 = 120 + (if isLeapYear y then (1 : Int) else 0) := rfl

lemma dbmv6 (y : Int) :
    daysBeforeMonth y 6 = 151 + (if isLeapYear y then (1 : Int) else 0) := rfl

lemma dbmv7 (y : Int) :
    daysBeforeMonth y 7 = 181 + (if isLeapYear y then (1 : Int) else 0) := rfl

lemma dbmv8 (y : Int) :
    daysBeforeMonth y 8 = 212 + (if isLeapYear y then (1 : Int) else 0) := rfl

lemma dbmv9 (y : Int) :
    daysBeforeMonth y 9 = 243 + (if isLeapYear y then (1 : Int) else 0) := rfl

lemma dbmv10 (y : Int) :
    daysBeforeMonth y 10 = 273 + (if isLeapYear y then (1 : Int) else 0) := rfl

lemma dbmv11 (y : Int) :
    daysBeforeMonth y 11 = 304 + (if isLeapYear y then (1 : Int) else 0) := rfl

lemma dbmv12 (y : Int) :
    daysBeforeMonth y 12 = 334 + (if isLeapYear y then (1 : Int) else 0) := rfl

lemma daysInYear_val (y : Int) :
    daysInYear y = 365 + (if isLeapYear y then (1 : Int) else 0) := by
  unfold daysInYear
  split_ifs <;> omega

lemma dimv2i (y : Int) :
    (daysInMonth y 2 : Int) = 28 + (if isLeapYear y then (1 : Int) else 0) := by
  unfold daysInMonth
  split_ifs <;> simp

lemma ordToMD_spec (y l o : Int) (M : Nat) (D : Int)
    (hly : (if isLeapYear y then (1 : Int) else 0) = l) (h1 : 1 ≤ o) (h2 : o ≤ 365 + l)
    (h : ordToMD l o = (M, D)) :
    1 ≤ M ∧ M ≤ 12 ∧ 1 ≤ D ∧ D ≤ (daysInMonth y M : Int) ∧ daysBeforeMonth y M + D = o := by
  have hl0 : 0 ≤ l := by rw [← hly]; split_ifs <;> omega
  have hl1 : l ≤ 1 := by rw [← hly]; split_ifs <;> omega
  have hdim2 : (daysInMonth y 2 : Int) = 28 + l := by rw [dimv2i, hly]
  unfold ordToMD at h
  by_cases g1 : o ≤ 31
  · rw [if_pos g1] at h
    injection h with hM hD
    subst hM
    subst hD
    simp only [daysInMonth_one, hdim2, dimv3, dimv4, dimv5, dimv6, dimv7, dimv8, dimv9,
      daysInMonth_ten, dimv11, daysInMonth_twelve, dbmv1, dbmv2, dbmv3, dbmv4, dbmv5, dbmv6,
      dbmv7, dbmv8, dbmv9, dbmv10, dbmv11, dbmv12, hly]
    omega
  rw [if_neg g1] at h
  by_cases g2 : o ≤ 59 + l
  · rw [if_pos g2] at h
    injection h with hM hD
    subst hM
    subst hD
    simp only [daysInMonth_one, hdim2, dimv3, dimv4, dimv5, dimv6, dimv7, dimv8, dimv9,
      daysInMonth_ten, dimv11, daysInMonth_twelve, dbmv1, dbmv2, dbmv3, dbmv4, dbmv5, dbmv6,
      dbmv7, dbmv8, dbmv9, dbmv10, dbmv11, dbmv12, hly]
    omega
  rw [if_neg g2] at h
  by_cases g3 : o ≤ 90 + l
  · rw [if_pos g3] at h
    injection h with hM hD
    subst hM
    subst hD
    simp only [daysInMonth_one, hdim2, dimv3, dimv4, dimv5, dimv6, dimv7, dimv8, dimv9,
      daysInMonth_ten, dimv11, daysInMonth_twelve, dbmv1, dbmv2, dbmv3, dbmv4, dbmv5, dbmv6,
      dbmv7, dbmv8, dbmv9, dbmv10, dbmv11, dbmv12, hly]
    omega
  rw [if_neg g3] at h
  by_cases g4 : o ≤ 120 + l
  · rw [if_pos g4] at h
    injection h with hM hD
    subst hM
    subst hD
    simp only [daysInMonth_one, hdim2, dimv3, dimv4, dimv5, dimv6, dimv7, dimv8, dimv9,
      daysInMonth_ten, dimv11, daysInMonth_twelve, dbmv1, dbmv2, dbmv3, dbmv4, dbmv5, dbmv6,
      dbmv7, dbmv8, dbmv9, dbmv10, dbmv11, dbmv12, hly]
    omega
  rw [if_neg g4] at h
  by_cases g5 : o ≤ 151 + l
  · rw [if_pos g5] at h
    injection h with hM hD
    subst hM
    subst hD
    simp only [daysInMonth_one, hdim2, dimv3, dimv4, dimv5, dimv6, dimv7, dimv8, dimv9,
      daysInMonth_ten, dimv11, daysInMonth_twelve, dbmv1, dbmv2, dbmv3, dbmv4, dbmv5, dbmv6,
      dbmv7, dbmv8, dbmv9, dbmv10, dbmv11, dbmv12, hly]
    omega
  rw [if_neg g5] at h
  by_cases g6 : o ≤ 181 + l
  · rw [if_pos g6] at h
    injection h with hM hD
    subst hM
    subst hD
    simp only [daysInMonth_one, hdim2, dimv3, dimv4, dimv5, dimv6, dimv7, dimv8, dimv9,
      daysInMonth_ten, dimv11, daysInMonth_twelve, dbmv1, dbmv2, dbmv3, dbmv4, dbmv5, dbmv6,
      dbmv7, dbmv8, dbmv9, dbmv10, dbmv11, dbmv12, hly]
    omega
  rw [if_neg g6] at h
  by_cases g7 : o ≤ 212 + l
  · rw [if_pos g7] at h
    injection h with hM hD
    subst hM
    subst hD
    simp only [daysInMonth_one, hdim2, dimv3, dimv4, dimv5, dimv6, dimv7, dimv8, dimv9,
      daysInMonth_ten, dimv11, daysInMonth_twelve, dbmv1, dbmv2, dbmv3, dbmv4, dbmv5, dbmv6,
      dbmv7, dbmv8, dbmv9, dbmv10, dbmv11, dbmv12, hly]
    omega
  rw [if_neg g7] at h
  by_cases g8 : o ≤ 243 + l
  · rw [if_pos g8] at h
    injection h with hM hD
    subst hM
    subst hD
    simp only [daysInMonth_one, hdim2, dimv3, dimv4, dimv5, dimv6, dimv7, dimv8, dimv9,
      daysInMonth_ten, dimv11, daysInMonth_twelve, dbmv1, dbmv2, dbmv3, dbmv4, dbmv5, dbmv6,
      dbmv7, dbmv8, dbmv9, dbmv10, dbmv11, dbmv12, hly]
    omega
  rw [if_neg g8] at h
  by_cases g9 : o ≤ 273 + l
  · rw [if_pos g9] at h
    injection h with hM hD
    subst hM
    subst hD
    simp only [daysInMonth_one, hdim2, dimv3, dimv4, dimv5, dimv6, dimv7, dimv8, dimv9,
      daysInMonth_ten, dimv11, daysInMonth_twelve, dbmv1, dbmv2, dbmv3, dbmv4, dbmv5, dbmv6,
      dbmv7, dbmv8, dbmv9, dbmv10, dbmv11, dbmv12, hly]
    omega
  rw [if_neg g9] at h
  by_cases g10 : o ≤ 304 + l
  · rw [if_pos g10] at h
    injection h with hM hD
    subst hM
    subst hD
    simp only [daysInMonth_one, hdim2, dimv3, dimv4, dimv5, dimv6, dimv7, dimv8, dimv9,
      daysInMonth_ten, dimv11, daysInMonth_twelve, dbmv1, dbmv2, dbmv3, dbmv4, dbmv5, dbmv6,
      dbmv7, dbmv8, dbmv9, dbmv10, dbmv11, dbmv12, hly]
    omega
  rw [if_neg g10] at h
  by_cases g11 : o ≤ 334 + l
  · rw [if_pos g11] at h
    injection h with hM hD
    subst hM
    subst hD
    simp only [daysInMonth_one, hdim2, dimv3, dimv4, dimv5, dimv6, dimv7, dimv8, dimv9,
      daysInMonth_ten, dimv11, daysInMonth_twelve, dbmv1, dbmv2, dbmv3, dbmv4, dbmv5, dbmv6,
      dbmv7, dbmv8, dbmv9, dbmv10, dbmv11, dbmv12, hly]
    omega
  rw [if_neg g11] at h
  injection h with hM hD
  subst hM
  subst hD
  simp only [daysInMonth_one, hdim2, dimv3, dimv4, dimv5, dimv6, dimv7, dimv8, dimv9,
    daysInMonth_ten, dimv11, daysInMonth_twelve, dbmv1, dbmv2, dbmv3, dbmv4, dbmv5, dbmv6,
    dbmv7, dbmv8, dbmv9, dbmv10, dbmv11, dbmv12, hly]
  omega

lemma fromYearOrdinal_some (y o : Int) (e : Date) (h : fromYearOrdinal y o = some e) :
    e.Valid ∧ e.year = y ∧ dayOfYear e = o := by
  unfold fromYearOrdinal at h
  by_cases hg : minYear ≤ y ∧ y ≤ maxYear ∧ 1 ≤ o ∧ o ≤ daysInYear y
  · rw [if_pos hg] at h
    obtain ⟨hy1, hy2, ho1, ho2⟩ := hg
    obtain ⟨M, D, hMD⟩ : ∃ M D, ordToMD (if isLeapYear y then (1 : Int) else 0) o = (M, D) :=
      ⟨_, _, rfl⟩
    rw [hMD] at h
    dsimp only at h
    injection h with h
    subst h
    have hnd := daysInYear_val y
    obtain ⟨hm1, hm2, hd1, hd2, hsum⟩ :=
      ordToMD_spec y (if isLeapYear y then (1 : Int) else 0) o M D rfl ho1 (by omega) hMD
    refine ⟨valid_mk _ _ _ hy1 hy2 hm1 hm2 (by omega) (by omega), rfl, ?_⟩
    simp only [dayOfYear]
    omega
  · rw [if_neg hg] at h
    exact absurd h (by simp)

lemma fromYearOrdinal_isSome (y o : Int) (h1 : minYear ≤ y) (h2 : y ≤ maxYear) (h3 : 1 ≤ o)
    (h4 : o ≤ daysInYear y) : (fromYearOrdinal y o).isSome := by
  simp only [fromYearOrdinal]
  rw [if_pos ⟨h1, h2, h3, h4⟩]
  rfl

lemma from_isoywd_some (y w : Int) (wd : Weekday) (e : Date)
    (h : from_isoywd_opt y w wd = some e) :
    1 ≤ w ∧ w ≤ nisoweeks y ∧ e.Valid ∧
      toRD e = week1Mon y + 7 * (w - 1) + wd.num_days_from_monday := by
  simp only [from_isoywd_opt] at h
  by_cases hw : w < 1 ∨ nisoweeks y < w
  · rw [if_pos hw] at h
    exact absurd h (by simp)
  rw [if_neg hw] at h
  set t := 7 * (w - 1) + wd.num_days_from_monday + 4 - (jan1RD y + 2) % 7 with ht
  have hj0 : jan1RD y = jan1RD (y - 1) + daysInYear (y - 1) := by
    have hh := jan1RD_succ (y - 1)
    rw [sub_add_cancel] at hh
    omega
  have hj1 := jan1RD_succ y
  by_cases ho1 : t ≤ 0
  · rw [if_pos ho1] at h
    obtain ⟨hev, hey, hdoy⟩ := fromYearOrdinal_some _ _ _ h
    refine ⟨by omega, by omega, hev, ?_⟩
    unfold toRD week1Mon
    rw [hey, hdoy]
    omega
  rw [if_neg ho1] at h
  by_cases ho2 : t ≤ daysInYear y
  · rw [if_pos ho2] at h
    obtain ⟨hev, hey, hdoy⟩ := fromYearOrdinal_some _ _ _ h
    refine ⟨by omega, by omega, hev, ?_⟩
    unfold toRD week1Mon
    rw [hey, hdoy]
    omega
  · rw [if_neg ho2] at h
    obtain ⟨hev, hey, hdoy⟩ := fromYearOrdinal_some _ _ _ h
    refine ⟨by omega, by omega, hev, ?_⟩
    unfold toRD week1Mon
    rw [hey, hdoy]
    omega

lemma from_isoywd_isSome (y w : Int) (wd : Weekday) (hw1 : 1 ≤ w) (hw2 : w ≤ nisoweeks y)
    (hlo : minRD ≤ week1Mon y + 7 * (w - 1) + wd.num_days_from_monday)
    (hhi : week1Mon y + 7 * (w - 1) + wd.num_days_from_monday ≤ maxRD) :
    (from_isoywd_opt y w wd).isSome := by
  have hdow := num_days_from_monday_bounds wd
  have hn := nisoweeks_bounds y
  have hd0 := daysInYear_bounds (y - 1)
  have hd1 := daysInYear_bounds y
  have hd2 := daysInYear_bounds (y + 1)
  have hj0 : jan1RD y = jan1RD (y - 1) + daysInYear (y - 1) := by
    have hh := jan1RD_succ (y - 1)
    rw [sub_add_cancel] at hh
    omega
  have hj1 := jan1RD_succ y
  have hj2 := jan1RD_succ (y + 1)
  have hm1 := minRD_eq
  have hm2 := maxRD_eq
  unfold week1Mon at hlo hhi
  simp only [from_isoywd_opt]
  rw [if_neg (by omega : ¬ (w < 1 ∨ nisoweeks y < w))]
  set t := 7 * (w - 1) + wd.num_days_from_monday + 4 - (jan1RD y + 2) % 7 with ht
  by_cases ho1 : t ≤ 0
  · rw [if_pos ho1]
    apply fromYearOrdinal_isSome
    · by_contra hc
      push_neg at hc
      have := jan1RD_mono y minYear (by omega)
      omega
    · by_contra hc
      push_neg at hc
      have hmono := jan1RD_mono (maxYear + 1 + 1) y (by omega)
      have hjx := jan1RD_succ (maxYear + 1)
      have hbx := daysInYear_bounds (maxYear + 1)
      omega
    · omega
    · omega
  rw [if_neg ho1]
  by_cases ho2 : t ≤ daysInYear y
  · rw [if_pos ho2]
    apply fromYearOrdinal_isSome
    · by_contra hc
      push_neg at hc
      have := jan1RD_mono (y + 1) minYear (by omega)
      omega
    · by_contra hc
      push_neg at hc
      have := jan1RD_mono (maxYear + 1) y (by omega)
      omega
    · omega
    · omega
  · rw [if_neg ho2]
    apply fromYearOrdinal_isSome
    · by_contra hc
      push_neg at hc
      have := jan1RD_mono (y + 1 + 1) minYear (by omega)
      omega
    · by_contra hc
      push_neg at hc
      have := jan1RD_mono (maxYear + 1) (y + 1) (by omega)
      omega
    · omega
    · omega

lemma isoWeekPair_char (d : Date) (hd : d.Valid) :
    1 ≤ (isoWeekPair d).2 ∧ (isoWeekPair d).2 ≤ nisoweeks (isoWeekPair d).1 ∧
      week1Mon (isoWeekPair d).1 + 7 * ((isoWeekPair d).2 - 1) =
        toRD d - (toRD d - 1) % 7 := by
  have hr := toRD_year_range d hd
  have hj1 : jan1RD d.year = jan1RD (d.year - 1) + daysInYear (d.year - 1) := by
    have hh := jan1RD_succ (d.year - 1)
    rw [sub_add_cancel] at hh
    omega
  have hw1 : week1Mon d.year = week1Mon (d.year - 1) + 7 * nisoweeks (d.year - 1) := by
    have hh := week1Mon_add (d.year - 1)
    rw [sub_add_cancel] at hh
    omega
  have hw2 := week1Mon_add d.year
  have hn0 := nisoweeks_bounds (d.year - 1)
  have hn1 := nisoweeks_bounds d.year
  have hn2 := nisoweeks_bounds (d.year + 1)
  have hb0 := daysInYear_bounds (d.year - 1)
  have hb1 := daysInYear_bounds d.year
  have hv0 : week1Mon (d.year - 1) = jan1RD (d.year - 1) + 3 - (jan1RD (d.year - 1) + 2) % 7 :=
    rfl
  have hv1 : week1Mon d.year = jan1RD d.year + 3 - (jan1RD d.year + 2) % 7 := rfl
  have hv2 : week1Mon (d.year + 1) = jan1RD (d.year + 1) + 3 - (jan1RD (d.year + 1) + 2) % 7 :=
    rfl
  have hj2 := jan1RD_succ d.year
  simp only [isoWeekPair]
  split_ifs with c1 c2 <;> dsimp only <;> omega

lemma beginning_of_week_char (d b : Date) (hd : d.Valid) (h : beginning_of_week d = some b) :
    b.Valid ∧ toRD b = toRD d - toRD d % 7 := by
  unfold beginning_of_week at h
  by_cases hsun : d.weekday = Weekday.sun
  · rw [if_pos hsun] at h
    injection h with h
    subst h
    have hs : toRD d % 7 = 0 := (weekday_sun_iff d).mp hsun
    exact ⟨hd, by omega⟩
  · rw [if_neg hsun] at h
    cases hiso : from_isoywd_opt (isoWeekPair d).1 (isoWeekPair d).2 Weekday.sun with
    | none =>
      rw [hiso] at h
      exact absurd h (by simp)
    | some e =>
      rw [hiso, Option.some_bind] at h
      obtain ⟨hw1, hw2, hev, het⟩ := from_isoywd_some _ _ _ _ hiso
      have hpair := isoWeekPair_char d hd
      obtain ⟨hb, hbt⟩ := addDays_some e b (-7) hev h
      have hns : ¬ toRD d % 7 = 0 := fun hc => hsun ((weekday_sun_iff d).mpr hc)
      rw [num_days_from_monday_sun] at het
      exact ⟨hb, by omega⟩

lemma beginning_of_week_isSome (d : Date) (hd : d.Valid) (hlo : minRD + 13 ≤ toRD d)
    (hhi : toRD d + 6 ≤ maxRD) : (beginning_of_week d).isSome := by
  unfold beginning_of_week
  by_cases hsun : d.weekday = Weekday.sun
  · rw [if_pos hsun]
    rfl
  · rw [if_neg hsun]
    have hpair := isoWeekPair_char d hd
    have hiso := from_isoywd_isSome (isoWeekPair d).1 (isoWeekPair d).2 Weekday.sun hpair.1
      hpair.2.1 (by rw [num_days_from_monday_sun]; omega)
      (by rw [num_days_from_monday_sun]; omega)
    obtain ⟨e, he⟩ := Option.isSome_iff_exists.mp hiso
    rw [he, Option.some_bind]
    obtain ⟨hw1, hw2, hev, het⟩ := from_isoywd_some _ _ _ _ he
    rw [num_days_from_monday_sun] at het
    apply addDays_isSome e (-7) hev
    · omega
    · omega

lemma addDays_one (d : Date) : addDays d 1 = d.succ := by
  unfold addDays
  rw [if_pos (by omega : (0 : Int) ≤ 1)]
  show addDaysNat d 1 = d.succ
  cases hs : d.succ <;> simp [addDaysNat, hs]

lemma addDays_neg_one (d : Date) : addDays d (-1) = d.pred := by
  unfold addDays
  rw [if_neg (by omega : ¬ (0 : Int) ≤ -1)]
  show subDaysNat d 1 = d.pred
  cases hs : d.pred <;> simp [subDaysNat, hs]

lemma toRD_margin (d : Date) (hd : d.Valid) (h1 : minYear < d.year) (h2 : d.year < maxYear) :
    minRD + 365 ≤ toRD d ∧ toRD d + 365 ≤ maxRD := by
  have hr := toRD_year_range d hd
  have hm1 := jan1RD_mono (minYear + 1) d.year (by omega)
  have hm2 := jan1RD_mono (d.year + 1) maxYear (by omega)
  have hs1 := jan1RD_succ minYear
  have hs2 := jan1RD_succ maxYear
  have hb1 := daysInYear_bounds minYear
  have hb2 := daysInYear_bounds maxYear
  have he1 := minRD_eq
  have he2 := maxRD_eq
  omega

/-! ### Claim theorems -/

/-- C1: for every valid date `d`, `beginning_of_week` returns `d` unchanged when
`d` is a Sunday; any returned date is a Sunday with `d` minus the result between
0 and 6 days; and when `d` is not a Sunday the result is strictly before `d` and
no valid Sunday strictly before `d` is later than it (it is the most recent
Sunday strictly before `d`). -/
theorem beginning_of_week_spec (d : Date) (hd : d.Valid) :
    (d.weekday = Weekday.sun → beginning_of_week d = some d) ∧
      ∀ b, beginning_of_week d = some b →
        b.weekday = Weekday.sun ∧ 0 ≤ toRD d - toRD b ∧ toRD d - toRD b ≤ 6 ∧
          (d.weekday ≠ Weekday.sun → toRD b < toRD d ∧
            ∀ s, s.Valid → s.weekday = Weekday.sun → toRD s < toRD d → toRD s ≤ toRD b) := by
  constructor
  · intro hsun
    unfold beginning_of_week
    rw [if_pos hsun]
  · intro b hb
    obtain ⟨hbv, hbt⟩ := beginning_of_week_char d b hd hb
    have hmod : 0 ≤ toRD d % 7 ∧ toRD d % 7 < 7 := by omega
    refine ⟨(weekday_sun_iff b).mpr (by omega), by omega, by omega, ?_⟩
    intro hns
    have hd7 : ¬ toRD d % 7 = 0 := fun hc => hns ((weekday_sun_iff d).mpr hc)
    refine ⟨by omega, ?_⟩
    intro s hs hssun hslt
    have hsm : toRD s % 7 = 0 := (weekday_sun_iff s).mp hssun
    omega

theorem beginning_of_week_spec_witness :
    Date.weekday ⟨2021, 1, 31⟩ = Weekday.sun ∧
      toRD ⟨2021, 2, 3⟩ - toRD ⟨2021, 1, 31⟩ ≤ 6 :=
  ⟨((beginning_of_week_spec ⟨2021, 2, 3⟩ (by decide)).2 ⟨2021, 1, 31⟩ (by decide)).1,
    ((beginning_of_week_spec ⟨2021, 2, 3⟩ (by decide)).2 ⟨2021, 1, 31⟩ (by decide)).2.2.1⟩

/-- C10: `beginning_of_week` is idempotent: whenever it returns `some s`,
running it again on `s` returns `some s` (the result is always a Sunday, and a
Sunday input is returned unchanged). -/
theorem beginning_of_week_idem (d s : Date) (hd : d.Valid)
    (h : beginning_of_week d = some s) : beginning_of_week s = some s := by
  obtain ⟨hsv, hst⟩ := beginning_of_week_char d s hd h
  have hsun : s.weekday = Weekday.sun := (weekday_sun_iff s).mpr (by omega)
  unfold beginning_of_week
  rw [if_pos hsun]

theorem beginning_of_week_idem_witness :
    beginning_of_week ⟨2021, 12, 12⟩ = some ⟨2021, 12, 12⟩ :=
  beginning_of_week_idem ⟨2021, 12, 15⟩ ⟨2021, 12, 12⟩ (by decide) (by decide)

/-- C3: any result of `previous_week d` is a Sunday, equals the
`beginning_of_week` Sunday minus 7 days (also when `d` is itself a Sunday), and
lies between 13 and 7 days before `d`. -/
theorem previous_week_spec (d b : Date) (hd : d.Valid) (h : previous_week d = some b) :
    b.weekday = Weekday.sun ∧ (∀ c, beginning_of_week d = some c → toRD b = toRD c - 7) ∧
      -13 ≤ toRD b - toRD d ∧ toRD b - toRD d ≤ -7 := by
  unfold previous_week at h
  cases hbw : beginning_of_week d with
  | none =>
    rw [hbw] at h
    exact absurd h (by simp)
  | some c =>
    rw [hbw, Option.some_bind] at h
    obtain ⟨hcv, hct⟩ := beginning_of_week_char d c hd hbw
    obtain ⟨hbv, hbt⟩ := addDays_some c b (-7) hcv h
    have hmod : 0 ≤ toRD d % 7 ∧ toRD d % 7 < 7 := by omega
    refine ⟨(weekday_sun_iff b).mpr (by omega), ?_, by omega, by omega⟩
    intro c2 hc2
    injection hc2 with hc2
    subst hc2
    omega

theorem previous_week_spec_witness :
    Date.weekday ⟨2020, 12, 27⟩ = Weekday.sun ∧
      toRD ⟨2020, 12, 27⟩ - toRD ⟨2021, 1, 5⟩ ≤ -7 :=
  ⟨(previous_week_spec ⟨2021, 1, 5⟩ ⟨2020, 12, 27⟩ (by decide) (by decide)).1,
    (previous_week_spec ⟨2021, 1, 5⟩ ⟨2020, 12, 27⟩ (by decide) (by decide)).2.2.2⟩

/-- C8: any result of `next_week d` equals the `beginning_of_week` Sunday plus
7 days, is a Sunday strictly after `d` by at most 7 days, and on a Sunday input
is exactly 7 days after `d` rather than `d` itself. -/
theorem next_week_spec (d b : Date) (hd : d.Valid) (h : next_week d = some b) :
    b.weekday = Weekday.sun ∧ (∀ c, beginning_of_week d = some c → toRD b = toRD c + 7) ∧
      0 < toRD b - toRD d ∧ toRD b - toRD d ≤ 7 ∧
      (d.weekday = Weekday.sun → toRD b = toRD d + 7) := by
  unfold next_week at h
  cases hbw : beginning_of_week d with
  | none =>
    rw [hbw] at h
    exact absurd h (by simp)
  | some c =>
    rw [hbw, Option.some_bind] at h
    obtain ⟨hcv, hct⟩ := beginning_of_week_char d c hd hbw
    obtain ⟨hbv, hbt⟩ := addDays_some c b 7 hcv h
    have hmod : 0 ≤ toRD d % 7 ∧ toRD d % 7 < 7 := by omega
    refine ⟨(weekday_sun_iff b).mpr (by omega), ?_, by omega, by omega, ?_⟩
    · intro c2 hc2
      injection hc2 with hc2
      subst hc2
      omega
    · intro hsun
      have hs : toRD d % 7 = 0 := (weekday_sun_iff d).mp hsun
      omega

theorem next_week_spec_witness :
    Date.weekday ⟨2021, 10, 3⟩ = Weekday.sun ∧
      0 < toRD ⟨2021, 10, 3⟩ - toRD ⟨2021, 10, 1⟩ :=
  ⟨(next_week_spec ⟨2021, 10, 1⟩ ⟨2021, 10, 3⟩ (by decide) (by decide)).1,
    (next_week_spec ⟨2021, 10, 1⟩ ⟨2021, 10, 3⟩ (by decide) (by decide)).2.2.1⟩

/-- C4: `next_month` on a December date delegates to `next_year` (so any present
result is January 1 of the following year); on any other valid date it returns
day 1 of the next month in the same year. -/
theorem next_month_spec (d : Date) (hd : d.Valid) :
    (d.month = 12 → next_month d = next_year d ∧
      ∀ e, next_month d = some e → e = ⟨d.year + 1, 1, 1⟩) ∧
    (d.month ≠ 12 → next_month d = some ⟨d.year, d.month + 1, 1⟩) := by
  have hc := next_month_char d hd
  have hy := next_year_char d hd
  constructor
  · intro h12
    rcases hc with ⟨hne, _⟩ | ⟨_, heq⟩
    · exact absurd h12 hne
    · refine ⟨heq, ?_⟩
      intro e he
      rw [heq] at he
      rcases hy with ⟨_, hsome⟩ | ⟨_, hnone⟩
      · rw [hsome] at he
        injection he with he
        exact he.symm
      · rw [hnone] at he
        exact absurd he (by simp)
  · intro h12
    rcases hc with ⟨_, heq⟩ | ⟨h12e, _⟩
    · exact heq
    · exact absurd h12e h12

theorem next_month_spec_witness :
    Date.Valid ⟨2021, 12, 15⟩ ∧ next_month ⟨2021, 12, 15⟩ = next_year ⟨2021, 12, 15⟩ :=
  ⟨by decide, ((next_month_spec ⟨2021, 12, 15⟩ (by decide)).1 rfl).1⟩

/-- C5: any result `e` of `end_of_month d` has the same year and month as `d`,
and `e` plus one day equals `next_month d`. -/
theorem end_of_month_spec (d e : Date) (hd : d.Valid) (h : end_of_month d = some e) :
    e.year = d.year ∧ e.month = d.month ∧ addDays e 1 = next_month d := by
  unfold end_of_month at h
  cases hnm : next_month d with
  | none =>
    rw [hnm] at h
    exact absurd h (by simp)
  | some n =>
    rw [hnm, Option.some_bind, addDays_neg_one] at h
    have hm1 := hd.2.2.1
    have hm2 := hd.2.2.2.1
    rw [addDays_one]
    rcases next_month_char d hd with ⟨hne, heq⟩ | ⟨h12, heq⟩
    · rw [hnm] at heq
      injection heq with heq
      subst heq
      simp only [Date.pred] at h
      rw [if_neg (by omega : ¬ (1 : Nat) < 1), if_pos (by omega : 1 < d.month + 1)] at h
      simp only [Nat.add_sub_cancel] at h
      injection h with h
      subst h
      refine ⟨rfl, rfl, ?_⟩
      simp only [Date.succ]
      rw [if_neg (by omega : ¬ daysInMonth d.year d.month < daysInMonth d.year d.month),
        if_pos (by omega : d.month < 12)]
    · rw [hnm] at heq
      rcases next_year_char d hd with ⟨hmax, hny⟩ | ⟨_, hnone⟩
      · rw [hny] at heq
        injection heq with heq
        subst heq
        simp only [Date.pred] at h
        rw [if_neg (by omega : ¬ (1 : Nat) < 1)] at h
        rw [if_neg (by omega : ¬ (1 : Nat) < 1)] at h
        rw [if_pos (by have := hd.1; omega : minYear < d.year + 1)] at h
        simp only [add_sub_cancel_right] at h
        injection h with h
        subst h
        refine ⟨rfl, h12.symm, ?_⟩
        simp only [Date.succ]
        rw [if_neg (by rw [daysInMonth_twelve]; omega : ¬ (31 : Nat) < daysInMonth d.year 12),
          if_neg (by omega : ¬ (12 : Nat) < 12), if_pos hmax]
      · rw [hnone] at heq
        exact absurd heq (by simp)

theorem end_of_month_spec_witness :
    addDays ⟨2021, 1, 31⟩ 1 = next_month ⟨2021, 1, 31⟩ :=
  (end_of_month_spec ⟨2021, 1, 31⟩ ⟨2021, 1, 31⟩ (by decide) (by decide)).2.2

/-- C6: any result of `next_quarter d` has day 1 and month in {1, 4, 7, 10};
when `d.month ≥ 10` the result is January 1 of the next year, and otherwise it
is the first day of the quarter-start month plus 3 in the same year. -/
theorem next_quarter_spec (d : Date) (hd : d.Valid) :
    (∀ e, next_quarter d = some e →
      e.day = 1 ∧ (e.month = 1 ∨ e.month = 4 ∨ e.month = 7 ∨ e.month = 10)) ∧
    (10 ≤ d.month → ∀ e, next_quarter d = some e → e = ⟨d.year + 1, 1, 1⟩) ∧
    (d.month < 10 → next_quarter d = some ⟨d.year, quarter_month d + 3, 1⟩) := by
  have hc := next_quarter_char d hd
  have hq := quarter_month_cases d hd
  refine ⟨?_, ?_, ?_⟩
  · intro e he
    rcases hc with ⟨h10, hin⟩ | ⟨h10, heq⟩
    · rcases hin with ⟨_, heq⟩ | ⟨_, hnone⟩
      · rw [heq] at he
        injection he with he
        subst he
        exact ⟨rfl, Or.inl rfl⟩
      · rw [hnone] at he
        exact absurd he (by simp)
    · rw [heq] at he
      injection he with he
      subst he
      refine ⟨rfl, ?_⟩
      dsimp only
      omega
  · intro h10 e he
    rcases hc with ⟨_, hin⟩ | ⟨hlt, _⟩
    · rcases hin with ⟨_, heq⟩ | ⟨_, hnone⟩
      · rw [heq] at he
        injection he with he
        exact he.symm
      · rw [hnone] at he
        exact absurd he (by simp)
    · omega
  · intro h10
    rcases hc with ⟨hge, _⟩ | ⟨_, heq⟩
    · omega
    · exact heq

theorem next_quarter_spec_witness :
    Date.day ⟨2022, 1, 1⟩ = 1 ∧
      (Date.month ⟨2022, 1, 1⟩ = 1 ∨ Date.month ⟨2022, 1, 1⟩ = 4 ∨
        Date.month ⟨2022, 1, 1⟩ = 7 ∨ Date.month ⟨2022, 1, 1⟩ = 10) :=
  (next_quarter_spec ⟨2021, 10, 1⟩ (by decide)).1 ⟨2022, 1, 1⟩ (by decide)

/-- C7: any result of `previous_quarter d` has day 1 and month in {1, 4, 7, 10};
when `d.month ≤ 3` (first quarter) the result is October 1 of the previous year,
and otherwise it is the first day of the quarter-start month minus 3 in the same
year. -/
theorem previous_quarter_spec (d : Date) (hd : d.Valid) :
    (∀ e, previous_quarter d = some e →
      e.day = 1 ∧ (e.month = 1 ∨ e.month = 4 ∨ e.month = 7 ∨ e.month = 10)) ∧
    (d.month ≤ 3 → ∀ e, previous_quarter d = some e → e = ⟨d.year - 1, 10, 1⟩) ∧
    (3 < d.month → previous_quarter d = some ⟨d.year, quarter_month d - 3, 1⟩) := by
  have hc := previous_quarter_char d hd
  have hq := quarter_month_cases d hd
  refine ⟨?_, ?_, ?_⟩
  · intro e he
    rcases hc with ⟨h4, hin⟩ | ⟨h4, heq⟩
    · rcases hin with ⟨_, heq⟩ | ⟨_, hnone⟩
      · rw [heq] at he
        injection he with he
        subst he
        exact ⟨rfl, by dsimp only; omega⟩
      · rw [hnone] at he
        exact absurd he (by simp)
    · rw [heq] at he
      injection he with he
      subst he
      refine ⟨rfl, ?_⟩
      dsimp only
      omega
  · intro h3 e he
    rcases hc with ⟨_, hin⟩ | ⟨hge, _⟩
    · rcases hin with ⟨_, heq⟩ | ⟨_, hnone⟩
      · rw [heq] at he
        injection he with he
        exact he.symm
      · rw [hnone] at he
        exact absurd he (by simp)
    · omega
  · intro h3
    rcases hc with ⟨hlt, _⟩ | ⟨_, heq⟩
    · omega
    · exact heq

theorem previous_quarter_spec_witness :
    Date.day ⟨2020, 10, 1⟩ = 1 ∧
      (Date.month ⟨2020, 10, 1⟩ = 1 ∨ Date.month ⟨2020, 10, 1⟩ = 4 ∨
        Date.month ⟨2020, 10, 1⟩ = 7 ∨ Date.month ⟨2020, 10, 1⟩ = 10) :=
  (previous_quarter_spec ⟨2021, 1, 5⟩ (by decide)).1 ⟨2020, 10, 1⟩ (by decide)

/-- C9: for every valid date `d`, `end_of_year d` is December 31 of the year of
`d`, and `beginning_of_year d` is January 1 of the year of `d`. -/
theorem year_boundary_spec (d : Date) (hd : d.Valid) :
    end_of_year d = some ⟨d.year, 12, 31⟩ ∧ beginning_of_year d = some ⟨d.year, 1, 1⟩ :=
  ⟨end_of_year_eq d hd, beginning_of_year_eq d hd⟩

theorem year_boundary_spec_witness :
    end_of_year ⟨2021, 1, 31⟩ = some ⟨2021, 12, 31⟩ ∧
      beginning_of_year ⟨2021, 1, 31⟩ = some ⟨2021, 1, 1⟩ :=
  year_boundary_spec ⟨2021, 1, 31⟩ (by decide)

/-- C2: for every valid date whose year is strictly inside the representable chrono
year range (in particular for every year in the supported range 1584 to 9999),
all sixteen public operations return a present result; absent results (including
the modelled panics of chrono day arithmetic) can therefore occur only at the
two extreme representable years. -/
theorem total_within_range (d : Date) (hd : d.Valid) (h1 : minYear < d.year)
    (h2 : d.year < maxYear) :
    (beginning_of_week d).isSome ∧ (end_of_week d).isSome ∧ (next_week d).isSome ∧
      (previous_week d).isSome ∧ (beginning_of_month d).isSome ∧ (end_of_month d).isSome ∧
      (next_month d).isSome ∧ (previous_month d).isSome ∧ (beginning_of_quarter d).isSome ∧
      (end_of_quarter d).isSome ∧ (next_quarter d).isSome ∧ (previous_quarter d).isSome ∧
      (beginning_of_year d).isSome ∧ (end_of_year d).isSome ∧ (next_year d).isSome ∧
      (previous_year d).isSome := by
  obtain ⟨hmar1, hmar2⟩ := toRD_margin d hd h1 h2
  have hm1 := hd.2.2.1
  have hbw := beginning_of_week_isSome d hd (by omega) (by omega)
  obtain ⟨c, hc⟩ := Option.isSome_iff_exists.mp hbw
  obtain ⟨hcv, hct⟩ := beginning_of_week_char d c hd hc
  have hmod : 0 ≤ toRD d % 7 ∧ toRD d % 7 < 7 := by omega
  refine ⟨hbw, ?_, ?_, ?_, ?_, ?_, ?_, ?_, ?_, ?_, ?_, ?_, ?_, ?_, ?_, ?_⟩
  · unfold end_of_week
    rw [hc, Option.some_bind]
    exact addDays_isSome c 6 hcv (by omega) (by omega)
  · unfold next_week
    rw [hc, Option.some_bind]
    exact addDays_isSome c 7 hcv (by omega) (by omega)
  · unfold previous_week
    rw [hc, Option.some_bind]
    exact addDays_isSome c (-7) hcv (by omega) (by omega)
  · rw [beginning_of_month_eq d hd]
    rfl
  · rcases next_month_char d hd with ⟨hne, heq⟩ | ⟨h12, heq⟩
    · unfold end_of_month
      rw [heq, Option.some_bind, addDays_neg_one]
      simp only [Date.pred]
      rw [if_neg (by omega : ¬ (1 : Nat) < 1), if_pos (by omega : 1 < d.month + 1)]
      rfl
    · unfold end_of_month
      rcases next_year_char d hd with ⟨hmax, hny⟩ | ⟨hymax, _⟩
      · rw [heq, hny, Option.some_bind, addDays_neg_one]
        simp only [Date.pred]
        rw [if_neg (by omega : ¬ (1 : Nat) < 1)]
        rw [if_neg (by omega : ¬ (1 : Nat) < 1)]
        rw [if_pos (by omega : minYear < d.year + 1)]
        rfl
      · exact absurd hymax (by omega)
  · rcases next_month_char d hd with ⟨_, heq⟩ | ⟨_, heq⟩
    · rw [heq]
      rfl
    · rw [heq]
      rcases next_year_char d hd with ⟨_, hny⟩ | ⟨hymax, _⟩
      · rw [hny]
        rfl
      · exact absurd hymax (by omega)
  · rcases previous_month_char d hd with ⟨_, heq⟩ | ⟨_, hin⟩
    · rw [heq]
      rfl
    · rcases hin with ⟨_, heq⟩ | ⟨hymin, _⟩
      · rw [heq]
        rfl
      · exact absurd hymin (by omega)
  · rw [beginning_of_quarter_eq d hd]
    rfl
  · rcases next_quarter_char d hd with ⟨h10, hin⟩ | ⟨h10, heq⟩
    · rcases hin with ⟨_, heq⟩ | ⟨hymax, _⟩
      · unfold end_of_quarter
        rw [heq, Option.some_bind, addDays_neg_one]
        simp only [Date.pred]
        rw [if_neg (by omega : ¬ (1 : Nat) < 1)]
        rw [if_neg (by omega : ¬ (1 : Nat) < 1)]
        rw [if_pos (by omega : minYear < d.year + 1)]
        rfl
      · exact absurd hymax (by omega)
    · unfold end_of_quarter
      rw [heq, Option.some_bind, addDays_neg_one]
      simp only [Date.pred]
      have hq := quarter_month_cases d hd
      rw [if_neg (by omega : ¬ (1 : Nat) < 1), if_pos (by omega : 1 < quarter_month d + 3)]
      rfl
  · rcases next_quarter_char d hd with ⟨_, hin⟩ | ⟨_, heq⟩
    · rcases hin with ⟨_, heq⟩ | ⟨hymax, _⟩
      · rw [heq]
        rfl
      · exact absurd hymax (by omega)
    · rw [heq]
      rfl
  · rcases previous_quarter_char d hd with ⟨_, hin⟩ | ⟨_, heq⟩
    · rcases hin with ⟨_, heq⟩ | ⟨hymin, _⟩
      · rw [heq]
        rfl
      · exact absurd hymin (by omega)
    · rw [heq]
      rfl
  · rw [beginning_of_year_eq d hd]
    rfl
  · rw [end_of_year_eq d hd]
    rfl
  · rcases next_year_char d hd with ⟨_, hny⟩ | ⟨hymax, _⟩
    · rw [hny]
      rfl
    · exact absurd hymax (by omega)
  · rcases previous_year_char d hd with ⟨_, hpy⟩ | ⟨hymin, _⟩
    · rw [hpy]
      rfl
    · exact absurd hymin (by omega)

theorem total_within_range_witness :
    (beginning_of_week ⟨2021, 1, 31⟩).isSome ∧ (end_of_week ⟨2021, 1, 31⟩).isSome ∧
      (next_week ⟨2021, 1, 31⟩).isSome ∧ (previous_week ⟨2021, 1, 31⟩).isSome ∧
      (beginning_of_month ⟨2021, 1, 31⟩).isSome ∧ (end_of_month ⟨2021, 1, 31⟩).isSome ∧
      (next_month ⟨2021, 1, 31⟩).isSome ∧ (previous_month ⟨2021, 1, 31⟩).isSome ∧
      (beginning_of_quarter ⟨2021, 1, 31⟩).isSome ∧ (end_of_quarter ⟨2021, 1, 31⟩).isSome ∧
      (next_quarter ⟨2021, 1, 31⟩).isSome ∧ (previous_quarter ⟨2021, 1, 31⟩).isSome ∧
      (beginning_of_year ⟨2021, 1, 31⟩).isSome ∧ (end_of_year ⟨2021, 1, 31⟩).isSome ∧
      (next_year ⟨2021, 1, 31⟩).isSome ∧ (previous_year ⟨2021, 1, 31⟩).isSome :=
  total_within_range ⟨2021, 1, 31⟩ (by decide) (by decide) (by decide)
